import Mathlib

/-!
Verification of the `with-checked-bytes` Rust library (src/lib.rs).

The library offers one primitive, `with_checked_bytes_mut`, which runs a
caller-supplied closure over a copy-on-write byte view (`MutableStringBytes`)
of a UTF-8 string and then either commits the mutated bytes back into the
string (when they still form valid UTF-8) or rolls back and reports
`Error::InvalidUtf8`.

Embedding choices:
- A byte is a `Nat`; a stored byte is always reduced mod 256 where a `u8`
  write happens, and byte buffers (`&[u8]`, `Vec<u8>`, the bytes of a
  `&mut str`) are `List Nat`.
- `std::str::from_utf8` is embedded as the boolean validator `utf8IsValid`,
  following the per-character range checks of `core::str`'s UTF-8 validation.
- The closure passed to `with_checked_bytes_mut` becomes a function
  `MutableStringBytes → MutableStringBytes × R`: it may transform the view
  arbitrarily (the enum's variants are public in the source) and returns `R`.
- The result type is `Option (Except Error R × List Nat)`: `some` carries the
  `Result` together with the final bytes of the storage, and `none` models
  the panic of `copy_from_slice` when the committed buffer's length differs
  from the storage's length.
- Closures that interact with the view only through its byte-sequence
  interface (`Deref` reads and `DerefMut` in-place byte writes) are modelled
  as traces: lists of `ViewOp` run by `runOps`.
- `TracedView` and `with_checked_bytes_mut_instr` instrument the same code
  with counters for buffer copies and UTF-8 validations, to state the
  allocation-freeness and unconditional-validation claims.
-/

namespace WithCheckedBytes

/-- Whether a byte is a UTF-8 continuation byte, i.e. lies in 0x80..=0xBF. -/
def isUtf8Cont (b : Nat) : Bool := 0x80 ≤ b && b ≤ 0xBF

/-- Embedding of `std::str::from_utf8`'s validity check (used at src/lib.rs:62):
returns `true` iff the byte list is valid UTF-8, following the range table of
`core::str`'s UTF-8 validation (ASCII; 2-byte C2..DF; 3-byte E0/E1..EC/ED/EE..EF
with their second-byte ranges; 4-byte F0/F1..F3/F4 with their second-byte
ranges; all continuation bytes in 0x80..=0xBF). -/
def utf8IsValid : List Nat → Bool
  | [] => true
  | x :: rest =>
    if x < 0x80 then utf8IsValid rest
    else if 0xC2 ≤ x && x ≤ 0xDF then
      match rest with
      | y :: rest2 => isUtf8Cont y && utf8IsValid rest2
      | [] => false
    else if 0xE0 ≤ x && x ≤ 0xEF then
      match rest with
      | y :: z :: rest3 =>
        (if x = 0xE0 then decide (0xA0 ≤ y) && decide (y ≤ 0xBF)
         else if x = 0xED then decide (0x80 ≤ y) && decide (y ≤ 0x9F)
         else isUtf8Cont y)
        && isUtf8Cont z && utf8IsValid rest3
      | _ => false
    else if 0xF0 ≤ x && x ≤ 0xF4 then
      match rest with
      | y :: z :: w :: rest4 =>
        (if x = 0xF0 then decide (0x90 ≤ y) && decide (y ≤ 0xBF)
         else if x = 0xF4 then decide (0x80 ≤ y) && decide (y ≤ 0x8F)
         else isUtf8Cont y)
        && isUtf8Cont z && isUtf8Cont w && utf8IsValid rest4
      | _ => false
    else false

/-- The view type `MutableStringBytes<'a>` of src/lib.rs:73-76: either a
borrowed slice of the original string's bytes or an owned copied buffer. -/
inductive MutableStringBytes : Type where
  | Borrowed : List Nat → MutableStringBytes
  | Owned : List Nat → MutableStringBytes
deriving DecidableEq

/-- The `Deref` impl of src/lib.rs:78-87: read access yields the borrowed
slice in `Borrowed` mode and the owned buffer's slice in `Owned` mode.
It takes the view immutably, so it cannot change the view's state. -/
def MutableStringBytes.deref : MutableStringBytes → List Nat
  | .Borrowed slice => slice
  | .Owned vec => vec

/-- The state transition performed by the `DerefMut` impl of src/lib.rs:89-100:
if the view is `Borrowed`, copy the slice into a fresh owned buffer
(`slice.to_vec()`) and replace the view with `Owned` of that buffer; an
already-`Owned` view is left as is. The returned mutable slice is the
buffer of the resulting (always `Owned`) view. -/
def MutableStringBytes.deref_mut : MutableStringBytes → MutableStringBytes
  | .Borrowed slice => .Owned slice
  | .Owned vec => .Owned vec

/-- The error enum of src/lib.rs:104-106: `InvalidUtf8` is its only variant
and carries no payload. -/
inductive Error : Type where
  | InvalidUtf8 : Error
deriving DecidableEq

/-- The `Display` impl of src/lib.rs:110-114: a fixed message for any value. -/
def Error.display : Error → String
  | .InvalidUtf8 => "MutableStringBytes contains invalid UTF-8 after modifications"

/-- The commit/rollback decision of src/lib.rs:60-68, taking the final view
`out.1` (the value of `target` after the closure ran) and the closure's
return value `out.2` (`res`). A final `Borrowed` view commits nothing and
succeeds with `Ok(res)`; a final `Owned v` view validates `v` with
`std::str::from_utf8` and either copies it over the storage in place
(`copy_from_slice` at src/lib.rs:64, which panics — here `none` — when
`v`'s length differs from the storage's length) or returns
`Err(Error::InvalidUtf8)` leaving the storage untouched. -/
def commitOutcome {R : Type} (self : List Nat) (out : MutableStringBytes × R) :
    Option (Except Error R × List Nat) :=
  match out.1 with
  | .Borrowed _ => some (Except.ok out.2, self)
  | .Owned v =>
    if utf8IsValid v then
      if v.length = self.length then some (Except.ok out.2, v)
      else none
    else some (Except.error Error.InvalidUtf8, self)

/-- The entry point `with_checked_bytes_mut` of src/lib.rs:54-69. `self` is
the byte content of the `&mut str` receiver (hence valid UTF-8 in any actual
call from safe Rust); `f` is the closure, as a function from the view it
receives to the final view and its return value. Mirrors the source:
construct `MutableStringBytes::Borrowed` over the storage's bytes
(src/lib.rs:58), run the closure on it exactly once (src/lib.rs:59), then
apply the commit/rollback decision to the resulting view and return value. -/
def with_checked_bytes_mut {R : Type} (self : List Nat)
    (f : MutableStringBytes → MutableStringBytes × R) :
    Option (Except Error R × List Nat) :=
  commitOutcome self (f (MutableStringBytes.Borrowed self))

/-- `commitOutcome` instrumented with a count of how many UTF-8 validations
(`std::str::from_utf8` calls, src/lib.rs:62) it performs: the `Borrowed`
arm performs none, the `Owned` arm performs exactly one. -/
def commitOutcomeInstr {R : Type} (self : List Nat) (out : MutableStringBytes × R) :
    Option (Except Error R × List Nat) × Nat :=
  match out.1 with
  | .Borrowed _ => (some (Except.ok out.2, self), 0)
  | .Owned v =>
    if utf8IsValid v then
      if v.length = self.length then (some (Except.ok out.2, v), 1)
      else (none, 1)
    else (some (Except.error Error.InvalidUtf8, self), 1)

/-- `with_checked_bytes_mut` instrumented with its UTF-8 validation count. -/
def with_checked_bytes_mut_instr {R : Type} (self : List Nat)
    (f : MutableStringBytes → MutableStringBytes × R) :
    Option (Except Error R × List Nat) × Nat :=
  commitOutcomeInstr self (f (MutableStringBytes.Borrowed self))

/-- One interaction of a closure with the view through its public
byte-sequence interface: a read through the `Deref` impl, or a `u8` write
through the `DerefMut` impl storing byte `b` at index `i` of the mutable
slice (e.g. `s[i] = b`; out-of-range indices are modelled as no-ops of
`List.set`, and the stored byte is `b % 256` as a `u8`). -/
inductive ViewOp : Type where
  | read : ViewOp
  | write : Nat → Nat → ViewOp
deriving DecidableEq

/-- Effect of one `ViewOp` on the view: a read goes through `Deref` and
leaves the view unchanged; a write first goes through `DerefMut`
(forcing the one-time copy to `Owned`) and then stores the byte in the
resulting owned buffer. -/
def applyOp (m : MutableStringBytes) : ViewOp → MutableStringBytes
  | .read => m
  | .write i b =>
    match m.deref_mut with
    | .Owned v => .Owned (v.set i (b % 256))
    | .Borrowed s => .Borrowed s

/-- Run a closure modelled as a sequence of view operations. -/
def runOps (m : MutableStringBytes) (ops : List ViewOp) : MutableStringBytes :=
  ops.foldl applyOp m

/-- The cost, in buffer allocations-and-copies, of taking the `DerefMut`
state transition from a given view state: `slice.to_vec()` at
src/lib.rs:92 allocates and copies once when `Borrowed`, and the
already-`Owned` path allocates nothing. -/
def copyCost : MutableStringBytes → Nat
  | .Borrowed _ => 1
  | .Owned _ => 0

/-- A view together with a running count of buffer copies performed. -/
structure TracedView : Type where
  view : MutableStringBytes
  copies : Nat
deriving DecidableEq

/-- Effect of one `ViewOp` on an instrumented view: reads copy nothing;
a write pays `copyCost` of the current state (1 on the first write,
0 afterwards) and updates the view as `applyOp` does. -/
def applyOpTraced (t : TracedView) : ViewOp → TracedView
  | .read => t
  | .write i b => ⟨applyOp t.view (.write i b), t.copies + copyCost t.view⟩

/-- Run a sequence of view operations on an instrumented view. -/
def runOpsTraced (t : TracedView) (ops : List ViewOp) : TracedView :=
  ops.foldl applyOpTraced t

/-! Helper lemmas about the view, traces and the instrumented runs. -/

theorem deref_deref_mut (m : MutableStringBytes) :
    m.deref_mut.deref = m.deref := by
  cases m <;> rfl

theorem deref_mut_eq_owned (m : MutableStringBytes) :
    m.deref_mut = .Owned m.deref := by
  cases m <;> rfl

theorem applyOp_read (m : MutableStringBytes) : applyOp m .read = m := rfl

theorem applyOp_write (m : MutableStringBytes) (i b : Nat) :
    applyOp m (.write i b) = .Owned (m.deref.set i (b % 256)) := by
  cases m <;> rfl

theorem applyOp_deref_length (m : MutableStringBytes) (op : ViewOp) :
    ((applyOp m op).deref).length = m.deref.length := by
  cases op with
  | read => rfl
  | write i b => rw [applyOp_write]; simp [MutableStringBytes.deref]

theorem runOps_nil (m : MutableStringBytes) : runOps m [] = m := rfl

theorem runOps_cons (m : MutableStringBytes) (op : ViewOp) (ops : List ViewOp) :
    runOps m (op :: ops) = runOps (applyOp m op) ops := rfl

theorem runOps_deref_length (ops : List ViewOp) (m : MutableStringBytes) :
    ((runOps m ops).deref).length = m.deref.length := by
  induction ops generalizing m with
  | nil => rfl
  | cons op ops ih => rw [runOps_cons, ih, applyOp_deref_length]

theorem applyOp_owned (v : List Nat) (op : ViewOp) :
    ∃ w, applyOp (.Owned v) op = .Owned w := by
  cases op with
  | read => exact ⟨v, rfl⟩
  | write i b => exact ⟨v.set i (b % 256), rfl⟩

theorem runOps_owned (ops : List ViewOp) (v : List Nat) :
    ∃ w, runOps (.Owned v) ops = .Owned w := by
  induction ops generalizing v with
  | nil => exact ⟨v, rfl⟩
  | cons op ops ih =>
    obtain ⟨w, hw⟩ := applyOp_owned v op
    rw [runOps_cons, hw]
    exact ih w

theorem runOps_borrowed_cases (ops : List ViewOp) (s : List Nat) :
    runOps (.Borrowed s) ops = .Borrowed s ∨ ∃ w, runOps (.Borrowed s) ops = .Owned w := by
  induction ops with
  | nil => exact Or.inl rfl
  | cons op ops ih =>
    cases op with
    | read => exact ih
    | write i b =>
      rw [runOps_cons, applyOp_write]
      exact Or.inr (runOps_owned ops _)

theorem runOps_write_mem_owned (ops : List ViewOp) (m : MutableStringBytes)
    (h : ∃ i b, ViewOp.write i b ∈ ops) : ∃ w, runOps m ops = .Owned w := by
  induction ops generalizing m with
  | nil => obtain ⟨i, b, hmem⟩ := h; cases hmem
  | cons op ops ih =>
    obtain ⟨i, b, hmem⟩ := h
    rcases List.mem_cons.mp hmem with heq | hmem
    · subst heq
      rw [runOps_cons, applyOp_write]
      exact runOps_owned ops _
    · exact ih _ ⟨i, b, hmem⟩

theorem runOpsTraced_view (ops : List ViewOp) (t : TracedView) :
    (runOpsTraced t ops).view = runOps t.view ops := by
  induction ops generalizing t with
  | nil => rfl
  | cons op ops ih =>
    cases op with
    | read => exact ih t
    | write i b => exact ih _

theorem applyOpTraced_inv (t : TracedView) (op : ViewOp) :
    (applyOpTraced t op).copies + copyCost (applyOpTraced t op).view
      = t.copies + copyCost t.view := by
  cases op with
  | read => rfl
  | write i b =>
    cases hv : t.view <;>
      simp [applyOpTraced, applyOp_write, hv, copyCost, MutableStringBytes.deref]

theorem runOpsTraced_inv (ops : List ViewOp) (t : TracedView) :
    (runOpsTraced t ops).copies + copyCost (runOpsTraced t ops).view
      = t.copies + copyCost t.view := by
  induction ops generalizing t with
  | nil => rfl
  | cons op ops ih =>
    have h1 : runOpsTraced t (op :: ops) = runOpsTraced (applyOpTraced t op) ops := rfl
    rw [h1, ih, applyOpTraced_inv]

theorem commitOutcomeInstr_fst {R : Type} (s : List Nat) (out : MutableStringBytes × R) :
    (commitOutcomeInstr s out).1 = commitOutcome s out := by
  obtain ⟨m, r⟩ := out
  cases m with
  | Borrowed t => rfl
  | Owned v =>
    by_cases hv : utf8IsValid v <;> by_cases hl : v.length = s.length <;>
      simp [commitOutcome, commitOutcomeInstr, hv, hl]

theorem instr_fst {R : Type} (s : List Nat)
    (f : MutableStringBytes → MutableStringBytes × R) :
    (with_checked_bytes_mut_instr s f).1 = with_checked_bytes_mut s f :=
  commitOutcomeInstr_fst s (f (MutableStringBytes.Borrowed s))

theorem commitOutcome_borrowed {R : Type} (s t : List Nat) (r : R) :
    commitOutcome s (.Borrowed t, r) = some (Except.ok r, s) := rfl

theorem commitOutcome_owned_valid {R : Type} (s v : List Nat) (r : R)
    (hv : utf8IsValid v = true) (hl : v.length = s.length) :
    commitOutcome s (.Owned v, r) = some (Except.ok r, v) := by
  simp [commitOutcome, hv, hl]

theorem commitOutcome_owned_invalid {R : Type} (s v : List Nat) (r : R)
    (hv : utf8IsValid v = false) :
    commitOutcome s (.Owned v, r) = some (Except.error Error.InvalidUtf8, s) := by
  simp [commitOutcome, hv]

theorem commitOutcome_owned_panic {R : Type} (s v : List Nat) (r : R)
    (hv : utf8IsValid v = true) (hl : v.length ≠ s.length) :
    commitOutcome s (.Owned v, r) = none := by
  simp [commitOutcome, hv, hl]

theorem wcbm_eq_commit {R : Type} (s : List Nat)
    (f : MutableStringBytes → MutableStringBytes × R) :
    with_checked_bytes_mut s f
      = commitOutcome s ((f (.Borrowed s)).1, (f (.Borrowed s)).2) := rfl

theorem wcbm_cases {R : Type} (s : List Nat)
    (f : MutableStringBytes → MutableStringBytes × R) :
    (∃ t, (f (.Borrowed s)).1 = .Borrowed t ∧
      with_checked_bytes_mut s f = some (Except.ok (f (.Borrowed s)).2, s)) ∨
    (∃ v, (f (.Borrowed s)).1 = .Owned v ∧
      ((utf8IsValid v = true ∧ v.length = s.length ∧
          with_checked_bytes_mut s f = some (Except.ok (f (.Borrowed s)).2, v)) ∨
       (utf8IsValid v = true ∧ v.length ≠ s.length ∧
          with_checked_bytes_mut s f = none) ∨
       (utf8IsValid v = false ∧
          with_checked_bytes_mut s f = some (Except.error Error.InvalidUtf8, s)))) := by
  rcases hm : (f (MutableStringBytes.Borrowed s)).1 with t | v
  · exact Or.inl ⟨t, rfl, by rw [wcbm_eq_commit, hm, commitOutcome_borrowed]⟩
  · refine Or.inr ⟨v, rfl, ?_⟩
    by_cases hv : utf8IsValid v
    · by_cases hl : v.length = s.length
      · exact Or.inl ⟨hv, hl, by rw [wcbm_eq_commit, hm, commitOutcome_owned_valid s v _ hv hl]⟩
      · exact Or.inr (Or.inl ⟨hv, hl, by rw [wcbm_eq_commit, hm, commitOutcome_owned_panic s v _ hv hl]⟩)
    · refine Or.inr (Or.inr ⟨Bool.eq_false_iff.mpr hv, ?_⟩)
      rw [wcbm_eq_commit, hm, commitOutcome_owned_invalid s v _ (Bool.eq_false_iff.mpr hv)]

theorem runOpsTraced_no_write (ops : List ViewOp) (t : TracedView)
    (h : ∀ i b, ViewOp.write i b ∉ ops) : runOpsTraced t ops = t := by
  induction ops generalizing t with
  | nil => rfl
  | cons op ops ih =>
    cases op with
    | read =>
      have h1 : runOpsTraced t (ViewOp.read :: ops) = runOpsTraced t ops := rfl
      rw [h1]
      exact ih t fun i b hmem => h i b (List.mem_cons_of_mem _ hmem)
    | write i b => exact absurd (List.mem_cons_self _ _) (h i b)

/-! Claim theorems. -/

/-- C1. Commit correctness: for every initial valid-UTF-8 storage and every
mutation (a sequence of view operations) whose final view buffer is valid
UTF-8 of the same byte length as the storage, `with_checked_bytes_mut`
returns success and afterwards the storage's bytes equal exactly the
mutation's final buffer contents. -/
theorem commit_correctness {R : Type} (s : List Nat) (ops : List ViewOp) (r : R)
    (_hs : utf8IsValid s = true)
    (hbuf : utf8IsValid ((runOps (.Borrowed s) ops).deref) = true)
    (hlen : ((runOps (.Borrowed s) ops).deref).length = s.length) :
    with_checked_bytes_mut s (fun m => (runOps m ops, r))
      = some (Except.ok r, (runOps (.Borrowed s) ops).deref) := by
  have he : with_checked_bytes_mut s (fun m => (runOps m ops, r))
      = commitOutcome s (runOps (.Borrowed s) ops, r) := rfl
  rcases runOps_borrowed_cases ops s with h | ⟨w, h⟩
  · rw [he, h, commitOutcome_borrowed]
    rfl
  · rw [h] at hbuf hlen
    rw [he, h]
    exact commitOutcome_owned_valid s w r hbuf hlen

/-- Witness for C1 on the spec's first scenario: storage "hello", one write
incrementing byte 1, committing "hfllo". -/
theorem commit_correctness_witness :
    with_checked_bytes_mut [104, 101, 108, 108, 111]
        (fun m => (runOps m [ViewOp.write 1 102], 0))
      = some (Except.ok 0, (runOps (.Borrowed [104, 101, 108, 108, 111]) [ViewOp.write 1 102]).deref) :=
  commit_correctness [104, 101, 108, 108, 111] [ViewOp.write 1 102] 0
    (by decide) (by decide) (by decide)

/-- C2. Rollback correctness: for every initial valid-UTF-8 storage and every
mutation (a sequence of view operations) whose final view buffer is not valid
UTF-8, `with_checked_bytes_mut` returns the `InvalidUtf8` error and the
storage's bytes are byte-identical to their value before the call. -/
theorem rollback_correctness {R : Type} (s : List Nat) (ops : List ViewOp) (r : R)
    (hs : utf8IsValid s = true)
    (hbuf : utf8IsValid ((runOps (.Borrowed s) ops).deref) = false) :
    with_checked_bytes_mut s (fun m => (runOps m ops, r))
      = some (Except.error Error.InvalidUtf8, s) := by
  have he : with_checked_bytes_mut s (fun m => (runOps m ops, r))
      = commitOutcome s (runOps (.Borrowed s) ops, r) := rfl
  rcases runOps_borrowed_cases ops s with h | ⟨w, h⟩
  · rw [h] at hbuf
    simp only [MutableStringBytes.deref] at hbuf
    rw [hs] at hbuf
    cases hbuf
  · rw [h] at hbuf
    rw [he, h]
    exact commitOutcome_owned_invalid s w r hbuf

/-- Witness for C2 on the spec's third scenario: storage "hello", one write
setting byte 1 to 0xFF, rejected with the storage untouched. -/
theorem rollback_correctness_witness :
    with_checked_bytes_mut [104, 101, 108, 108, 111]
        (fun m => (runOps m [ViewOp.write 1 255], 0))
      = some (Except.error Error.InvalidUtf8, [104, 101, 108, 108, 111]) :=
  rollback_correctness [104, 101, 108, 108, 111] [ViewOp.write 1 255] 0
    (by decide) (by decide)

/-- C3. No-op purity: for every initial valid-UTF-8 storage, calling
`with_checked_bytes_mut` with a closure that performs no writes through the
view (the view is still `Borrowed` when the closure returns) returns success,
performs no UTF-8 validation (instrumented count 0), and leaves the storage
byte-identical to before the call. -/
theorem noop_purity {R : Type} (s t : List Nat)
    (f : MutableStringBytes → MutableStringBytes × R)
    (_hs : utf8IsValid s = true)
    (h : (f (.Borrowed s)).1 = .Borrowed t) :
    with_checked_bytes_mut_instr s f
      = (some (Except.ok (f (.Borrowed s)).2, s), 0) := by
  calc with_checked_bytes_mut_instr s f
      = commitOutcomeInstr s ((f (.Borrowed s)).1, (f (.Borrowed s)).2) := rfl
    _ = commitOutcomeInstr s (.Borrowed t, (f (.Borrowed s)).2) := by rw [h]
    _ = (some (Except.ok (f (.Borrowed s)).2, s), 0) := rfl

/-- Witness for C3 on the spec's fourth scenario: storage "hello", a closure
that only reads byte 3 and returns it, leaving the view `Borrowed`. -/
theorem noop_purity_witness :
    with_checked_bytes_mut_instr [104, 101, 108, 108, 111]
        (fun m => (runOps m [ViewOp.read], m.deref.getD 3 0))
      = (some (Except.ok 108, [104, 101, 108, 108, 111]), 0) :=
  noop_purity [104, 101, 108, 108, 111] [104, 101, 108, 108, 111]
    (fun m => (runOps m [ViewOp.read], m.deref.getD 3 0)) (by decide) rfl

/-- C4. Return-value passthrough: whenever `with_checked_bytes_mut` returns
success, the success payload is exactly the value returned by the mutation
closure, unchanged, regardless of whether the closure performed any write;
on failure the result carries only the error (the storage is returned
untouched and the closure's value does not appear in the outcome). -/
theorem return_value_passthrough {R : Type} (s : List Nat)
    (f : MutableStringBytes → MutableStringBytes × R) :
    (∀ (r : R) (sNew : List Nat),
        with_checked_bytes_mut s f = some (Except.ok r, sNew) →
        r = (f (.Borrowed s)).2) ∧
    (∀ (e : Error) (sNew : List Nat),
        with_checked_bytes_mut s f = some (Except.error e, sNew) →
        e = Error.InvalidUtf8 ∧ sNew = s) := by
  rcases wcbm_cases s f with ⟨t, hm, hres⟩ | ⟨v, hm, hcase⟩
  · constructor
    · intro r sNew h
      rw [hres] at h
      injection h with h1
      injection h1 with h2 h3
      exact (Except.ok.inj h2).symm
    · intro e sNew h
      rw [hres] at h
      injection h with h1
      injection h1 with h2 h3
      injection h2
  · rcases hcase with ⟨hv, hl, hres⟩ | ⟨hv, hl, hres⟩ | ⟨hv, hres⟩
    · constructor
      · intro r sNew h
        rw [hres] at h
        injection h with h1
        injection h1 with h2 h3
        exact (Except.ok.inj h2).symm
      · intro e sNew h
        rw [hres] at h
        injection h with h1
        injection h1 with h2 h3
        injection h2
    · constructor
      · intro r sNew h
        rw [hres] at h
        injection h
      · intro e sNew h
        rw [hres] at h
        injection h
    · constructor
      · intro r sNew h
        rw [hres] at h
        injection h with h1
        injection h1 with h2 h3
        injection h2
      · intro e sNew h
        rw [hres] at h
        injection h with h1
        injection h1 with h2 h3
        exact ⟨(Except.error.inj h2).symm, h3.symm⟩

/-- Witness for C4 on the spec's second scenario: the closure replaces byte 3
of "hello" with 'z' and returns the old byte 108; the success payload is
exactly that value. -/
theorem return_value_passthrough_witness :
    (108 : Nat) = ((fun m => (runOps m [ViewOp.write 3 122], m.deref.getD 3 0))
        (MutableStringBytes.Borrowed [104, 101, 108, 108, 111])).2 :=
  (return_value_passthrough [104, 101, 108, 108, 111]
      (fun m => (runOps m [ViewOp.write 3 122], m.deref.getD 3 0))).1
    108 [104, 101, 108, 122, 111] rfl

/-- C5. Copy-on-write laziness: read access never changes the view's state and
never copies, in either mode; mutable access on a `Borrowed` view performs
exactly one copy, takes the referenced bytes over byte-for-byte, and switches
the view to `Owned`; mutable access on an already-`Owned` view copies nothing
further. Hence a trace starting at construction (`Borrowed`, zero copies) with
at least one write performs exactly one copy and its buffer keeps the original
byte length, and a trace with no writes (construction included) performs no
copy at all and leaves the view untouched. -/
theorem copy_on_write_laziness :
    (∀ t : TracedView, applyOpTraced t .read = t) ∧
    (∀ s : List Nat,
      MutableStringBytes.deref_mut (.Borrowed s) = .Owned s ∧
      copyCost (.Borrowed s) = 1) ∧
    (∀ v : List Nat,
      MutableStringBytes.deref_mut (.Owned v) = .Owned v ∧
      copyCost (.Owned v) = 0) ∧
    (∀ (s : List Nat) (ops : List ViewOp), (∃ i b, ViewOp.write i b ∈ ops) →
      (runOpsTraced ⟨.Borrowed s, 0⟩ ops).copies = 1 ∧
      ((runOpsTraced ⟨.Borrowed s, 0⟩ ops).view.deref).length = s.length) ∧
    (∀ (s : List Nat) (ops : List ViewOp), (∀ i b, ViewOp.write i b ∉ ops) →
      runOpsTraced ⟨.Borrowed s, 0⟩ ops = ⟨.Borrowed s, 0⟩) := by
  refine ⟨fun t => rfl, fun s => ⟨rfl, rfl⟩, fun v => ⟨rfl, rfl⟩, ?_, ?_⟩
  · intro s ops hw
    have hview : (runOpsTraced ⟨.Borrowed s, 0⟩ ops).view = runOps (.Borrowed s) ops :=
      runOpsTraced_view ops _
    obtain ⟨w, hOwned⟩ := runOps_write_mem_owned ops (.Borrowed s) hw
    have hinv := runOpsTraced_inv ops ⟨.Borrowed s, 0⟩
    rw [hview, hOwned] at hinv
    constructor
    · simpa [copyCost] using hinv
    · rw [hview]
      exact runOps_deref_length ops _
  · intro s ops hnw
    exact runOpsTraced_no_write ops _ hnw

/-- Witness for C5: a trace with two writes on "he" performs exactly one copy,
and a read-only trace performs none. -/
theorem copy_on_write_laziness_witness :
    (runOpsTraced ⟨.Borrowed [104, 101], 0⟩ [ViewOp.write 0 105, ViewOp.write 1 106]).copies = 1 ∧
    runOpsTraced ⟨.Borrowed [104, 101], 0⟩ [ViewOp.read, ViewOp.read] = ⟨.Borrowed [104, 101], 0⟩ :=
  ⟨(copy_on_write_laziness.2.2.2.1 [104, 101] [ViewOp.write 0 105, ViewOp.write 1 106]
      ⟨0, 105, by decide⟩).1,
   copy_on_write_laziness.2.2.2.2 [104, 101] [ViewOp.read, ViewOp.read]
     (by intro i b h; simp at h)⟩

/-- C6. One-way mode invariant: the entry point invokes the closure on a view
constructed in `Borrowed` mode over the storage's bytes; the first mutable
access on a `Borrowed` view transitions it to `Owned` (`DerefMut` always
leaves the view `Owned`); and under every sequence of the view's own read and
write operations an `Owned` view stays `Owned` — it never returns to
`Borrowed`. -/
theorem one_way_mode_invariant :
    (∀ (R : Type) (s : List Nat) (f : MutableStringBytes → MutableStringBytes × R),
      with_checked_bytes_mut s f = commitOutcome s (f (.Borrowed s))) ∧
    (∀ (s : List Nat) (i b : Nat),
      applyOp (.Borrowed s) (.write i b) = .Owned (s.set i (b % 256))) ∧
    (∀ m : MutableStringBytes, m.deref_mut = .Owned m.deref) ∧
    (∀ (v : List Nat) (ops : List ViewOp), ∃ w, runOps (.Owned v) ops = .Owned w) := by
  exact ⟨fun R s f => rfl, fun s i b => rfl, deref_mut_eq_owned,
    fun v ops => runOps_owned ops v⟩

/-- C7. Raises-iff: `with_checked_bytes_mut` returns an error exactly when the
view ended the closure in `Owned` mode with a buffer failing UTF-8 validation;
every returned error is `InvalidUtf8`; and validation runs exactly once
whenever the view ends `Owned` (even if the buffer equals the original
bytes), never otherwise. -/
theorem raises_iff {R : Type} (s : List Nat)
    (f : MutableStringBytes → MutableStringBytes × R) :
    ((∃ e sNew, with_checked_bytes_mut s f = some (Except.error e, sNew)) ↔
      (∃ v, (f (.Borrowed s)).1 = .Owned v ∧ utf8IsValid v = false)) ∧
    (∀ e sNew, with_checked_bytes_mut s f = some (Except.error e, sNew) →
      e = Error.InvalidUtf8) ∧
    (∀ v, (f (.Borrowed s)).1 = .Owned v → (with_checked_bytes_mut_instr s f).2 = 1) ∧
    (∀ t, (f (.Borrowed s)).1 = .Borrowed t → (with_checked_bytes_mut_instr s f).2 = 0) := by
  refine ⟨⟨?_, ?_⟩, ?_, ?_, ?_⟩
  · rintro ⟨e, sNew, h⟩
    rcases wcbm_cases s f with ⟨t, hm, hres⟩ | ⟨v, hm, hcase⟩
    · rw [hres] at h
      injection h with h1
      injection h1 with h2 h3
      injection h2
    · rcases hcase with ⟨hv, hl, hres⟩ | ⟨hv, hl, hres⟩ | ⟨hv, hres⟩
      · rw [hres] at h
        injection h with h1
        injection h1 with h2 h3
        injection h2
      · rw [hres] at h
        injection h
      · exact ⟨v, hm, hv⟩
  · rintro ⟨v, hm, hv⟩
    refine ⟨Error.InvalidUtf8, s, ?_⟩
    rw [wcbm_eq_commit, hm]
    exact commitOutcome_owned_invalid s v _ hv
  · intro e sNew h
    cases e
    rfl
  · intro v hm
    have he : with_checked_bytes_mut_instr s f
        = commitOutcomeInstr s ((f (.Borrowed s)).1, (f (.Borrowed s)).2) := rfl
    rw [he, hm]
    by_cases hv : utf8IsValid v <;> by_cases hl : v.length = s.length <;>
      simp [commitOutcomeInstr, hv, hl]
  · intro t hm
    have he : with_checked_bytes_mut_instr s f
        = commitOutcomeInstr s ((f (.Borrowed s)).1, (f (.Borrowed s)).2) := rfl
    rw [he, hm]
    rfl

/-- Witness for C7: on storage "hi", a closure leaving the view `Owned` with
an invalid byte makes an error observable via the iff, and a closure leaving
the view `Owned` with bytes identical to the original still validates once. -/
theorem raises_iff_witness :
    (∃ e sNew, with_checked_bytes_mut [104, 105]
        (fun _ => (MutableStringBytes.Owned [255], 37))
      = some (Except.error e, sNew)) ∧
    (with_checked_bytes_mut_instr [104, 105]
        (fun _ => (MutableStringBytes.Owned [104, 105], 37))).2 = 1 :=
  ⟨(raises_iff [104, 105] (fun _ => (MutableStringBytes.Owned [255], 37))).1.mpr
      ⟨[255], rfl, by decide⟩,
   (raises_iff [104, 105] (fun _ => (MutableStringBytes.Owned [104, 105], 37))).2.2.1
      [104, 105] rfl⟩

/-- C8. Length preservation by construction: every closure that interacts with
the view only through its byte-sequence read and write operations (a trace of
`ViewOp`, the only operations the view's interface exposes — there is no
insert, delete or resize) yields a final buffer whose byte length equals the
original storage's byte length, so the in-place overwrite's equal-length
precondition always holds and the call never reaches the length-mismatch
panic (it always returns a `some` outcome, with no runtime length check
failing). -/
theorem length_preservation (s : List Nat) (ops : List ViewOp) :
    ((runOps (.Borrowed s) ops).deref).length = s.length ∧
    ∃ res, with_checked_bytes_mut s (fun m => (runOps m ops, ())) = some res := by
  refine ⟨runOps_deref_length ops _, ?_⟩
  have he : with_checked_bytes_mut s (fun m => (runOps m ops, ()))
      = commitOutcome s (runOps (.Borrowed s) ops, ()) := rfl
  rcases runOps_borrowed_cases ops s with h | ⟨w, h⟩
  · exact ⟨(Except.ok (), s), by rw [he, h, commitOutcome_borrowed]⟩
  · have hlen : w.length = s.length := by
      have := runOps_deref_length ops (.Borrowed s)
      rwa [h] at this
    by_cases hv : utf8IsValid w
    · exact ⟨(Except.ok (), w), by rw [he, h]; exact commitOutcome_owned_valid s w _ hv hlen⟩
    · exact ⟨(Except.error Error.InvalidUtf8, s), by
        rw [he, h]
        exact commitOutcome_owned_invalid s w _ (Bool.eq_false_iff.mpr hv)⟩

/-- C9. Error type shape: `Error` has `InvalidUtf8` as its sole variant, its
`Display` output is a fixed human-readable description of the failure, and it
participates in the standard error-reporting conventions (the source's
`impl std::error::Error` is an empty marker on top of `Debug` and this
`Display`). -/
theorem error_type_shape :
    (∀ e : Error, e = Error.InvalidUtf8) ∧
    (∀ e : Error,
      e.display = "MutableStringBytes contains invalid UTF-8 after modifications") := by
  refine ⟨fun e => ?_, fun e => ?_⟩ <;> cases e <;> rfl

/-- C10. Because the view's variants are public, a closure can bypass the
copy-on-write protocol and leave the view `Owned` with a buffer of a
different length than the storage: when that buffer is valid UTF-8, the
commit's `copy_from_slice` on unequal-length slices panics (`none`) instead
of returning an error or committing; when the buffer is invalid UTF-8 (of any
length), the call still returns `InvalidUtf8` with the storage untouched. -/
theorem bypass_owned_behavior {R : Type} (s v : List Nat) (r : R) :
    (utf8IsValid v = true → v.length ≠ s.length →
      with_checked_bytes_mut s (fun _ => (.Owned v, r)) = none) ∧
    (utf8IsValid v = false →
      with_checked_bytes_mut s (fun _ => (.Owned v, r))
        = some (Except.error Error.InvalidUtf8, s)) := by
  constructor
  · intro hv hl
    have he : with_checked_bytes_mut s (fun _ => (MutableStringBytes.Owned v, r))
        = commitOutcome s (.Owned v, r) := rfl
    rw [he]
    exact commitOutcome_owned_panic s v r hv hl
  · intro hv
    have he : with_checked_bytes_mut s (fun _ => (MutableStringBytes.Owned v, r))
        = commitOutcome s (.Owned v, r) := rfl
    rw [he]
    exact commitOutcome_owned_invalid s v r hv

/-- Witness for C10: on storage "hello", handing back an owned valid buffer
"hi" of length 2 panics, while an owned invalid buffer of length 1 yields
`InvalidUtf8` with the storage unchanged. -/
theorem bypass_owned_behavior_witness :
    with_checked_bytes_mut [104, 101, 108, 108, 111]
        (fun _ => (MutableStringBytes.Owned [104, 105], 0)) = none ∧
    with_checked_bytes_mut [104, 101, 108, 108, 111]
        (fun _ => (MutableStringBytes.Owned [255], 0))
      = some (Except.error Error.InvalidUtf8, [104, 101, 108, 108, 111]) :=
  ⟨(bypass_owned_behavior [104, 101, 108, 108, 111] [104, 105] 0).1
      (by decide) (by decide),
   (bypass_owned_behavior [104, 101, 108, 108, 111] [255] 0).2 (by decide)⟩

end WithCheckedBytes
